import Mathlib

/-!
# luakit `common/msg.c`: value codec, range codec and message dispatch

A shallow embedding of `src/common/msg.c` and a verification development over it.

Modelling conventions

* The ABI is LP64 little-endian (x86-64): `sizeof(int) = 4`, `sizeof(size_t) = 8`,
  `sizeof(lua_Number) = 8`, `sizeof(guint) = 4`; objects are copied byte for byte
  (`g_byte_array_append`, `memcpy`), least significant byte first.
* A `lua_Number` is represented by its 64-bit IEEE-754 bit pattern; the codec only
  copies it, and Lua's key comparison is stated on the bit pattern.
* The Lua stack is a list of values, top of the stack first.  It is unbounded
  (`lua_checkstack` is outside the model).  Tables are modelled by value, as the list
  of their (key, value) pairs in traversal order; pseudo-indices are not modelled.
* Calls of the Lua C API that violate the API's preconditions, and reads outside the
  input buffer, are undefined behaviour in C; the model reports them as failures.
* Pointers are 64-bit addresses; pointer arithmetic wraps modulo `2 ^ 64`, and so does
  `size_t` arithmetic.  A `size_t` passed for a `guint` parameter is reduced modulo
  `2 ^ 32`.  Overflow of a signed `int` counter (`i++` at `INT_MAX`) is undefined
  behaviour in C; the model reports it as a failure.
* A `GByteArray` is modelled by its contents; how many bytes one array can hold is
  outside the model.
* Recursion and loops are bounded by a fuel argument; `Outcome.timeout` means the
  fuel ran out, never that the C code stopped.
-/

namespace Luakit

/-! ## Bytes and object representations -/

/-- One `guint8`. -/
abbrev Byte := Fin 256

/-- The `w` bytes of the unsigned number `n`, least significant first (truncating). -/
def le_bytes : Nat → Nat → List Byte
  | 0, _ => []
  | w + 1, n => Fin.ofNat (n % 256) :: le_bytes w (n / 256)

/-- The unsigned number held by a little-endian byte sequence. -/
def le_value : List Byte → Nat
  | [] => 0
  | b :: bs => b.val + 256 * le_value bs

/-- Object representation of an `int` (4 bytes, two's complement). -/
def bytes_of_int (i : Int) : List Byte :=
  le_bytes 4 (i % 4294967296).toNat

/-- The `int` held by 4 bytes (two's complement). -/
def int_of_bytes (bs : List Byte) : Int :=
  let u := le_value bs % 4294967296
  if u < 2147483648 then (u : Int) else (u : Int) - 4294967296

/-- Bit pattern of a `lua_Number` (IEEE-754 binary64). -/
abbrev lua_Number := Fin 18446744073709551616

/-! ## Lua values and the Lua state -/

mutual
/-- A Lua value.  `function`, `userdata`, `thread` and `lightuserdata` carry the
identity of the object (or the pointer). -/
inductive LuaValue where
  | nil
  | boolean (b : Bool)
  | lightuserdata (p : Nat)
  | number (n : lua_Number)
  | string (s : List Byte)
  | table (t : LuaTable)
  | function (id : Nat)
  | userdata (id : Nat)
  | thread (id : Nat)
  deriving DecidableEq
/-- The (key, value) pairs of a table in traversal order. -/
inductive LuaTable where
  | empty
  | cons (k v : LuaValue) (rest : LuaTable)
  deriving DecidableEq
end

/-- The pairs of a table as a list. -/
def LuaTable.toList : LuaTable → List (LuaValue × LuaValue)
  | .empty => []
  | .cons k v rest => (k, v) :: rest.toList

/-- The table holding the given pairs, in that traversal order. -/
def LuaTable.ofList : List (LuaValue × LuaValue) → LuaTable
  | [] => .empty
  | (k, v) :: rest => .cons k v (LuaTable.ofList rest)

/-- The Lua state: the stack of the running C function, top of the stack first. -/
structure lua_State where
  stack : List LuaValue
  deriving DecidableEq

/-- Why a call did not return normally. -/
inductive Failure where
  /-- The call raised a Lua error (`luaL_error`, `lua_error`): a `longjmp`. -/
  | luaError (msg : String)
  /-- The call broke a precondition of the Lua C API: undefined behaviour. -/
  | apiViolation
  /-- The call read outside the input buffer: undefined behaviour. -/
  | outOfBounds
  /-- An `assert` failed: the process aborts. -/
  | assertionFailed
  /-- An `int` was incremented at `INT_MAX`: undefined behaviour. -/
  | intOverflow
  deriving DecidableEq

/-- Result of running a piece of the C code from a state: normal return with a value
and the state reached, failure with the state at the point of failure, or out of fuel. -/
inductive Outcome (σ α : Type) where
  | ok (val : α) (st : σ)
  | fail (e : Failure) (st : σ)
  | timeout
  deriving DecidableEq

/-! ### Lua type tags (`lua.h`) -/

def LUA_TNONE : Int := -1
def LUA_TNIL : Int := 0
def LUA_TBOOLEAN : Int := 1
def LUA_TLIGHTUSERDATA : Int := 2
def LUA_TNUMBER : Int := 3
def LUA_TSTRING : Int := 4
def LUA_TTABLE : Int := 5
def LUA_TFUNCTION : Int := 6
def LUA_TUSERDATA : Int := 7
def LUA_TTHREAD : Int := 8

/-- The type tag of a value (`ttype`). -/
def LuaValue.ttype : LuaValue → Int
  | .nil => LUA_TNIL
  | .boolean _ => LUA_TBOOLEAN
  | .lightuserdata _ => LUA_TLIGHTUSERDATA
  | .number _ => LUA_TNUMBER
  | .string _ => LUA_TSTRING
  | .table _ => LUA_TTABLE
  | .function _ => LUA_TFUNCTION
  | .userdata _ => LUA_TUSERDATA
  | .thread _ => LUA_TTHREAD

/-- The name of a type tag (`lua_typename`). -/
def lua_typename (t : Int) : String :=
  if t = LUA_TNONE then "no value"
  else if t = LUA_TNIL then "nil"
  else if t = LUA_TBOOLEAN then "boolean"
  else if t = LUA_TLIGHTUSERDATA then "userdata"
  else if t = LUA_TNUMBER then "number"
  else if t = LUA_TSTRING then "string"
  else if t = LUA_TTABLE then "table"
  else if t = LUA_TFUNCTION then "function"
  else if t = LUA_TUSERDATA then "userdata"
  else if t = LUA_TTHREAD then "thread"
  else "?"

/-! ### Stack addressing -/

/-- What a stack index designates. -/
inductive Addr where
  /-- The slot at this depth below the top (0 is the top). -/
  | slot (depth : Nat)
  /-- A positive index above the top: no value (`luaO_nilobject`). -/
  | absent
  /-- Index 0 or a negative index below the bottom: not an acceptable index. -/
  | invalid
  deriving DecidableEq

/-- Resolution of a stack index (`index2adr`): positive indices count from the bottom
(1 is the first slot), negative ones from the top (-1 is the top). -/
def index2adr (L : lua_State) (idx : Int) : Addr :=
  if 0 < idx then
    if idx.toNat ≤ L.stack.length then .slot (L.stack.length - idx.toNat) else .absent
  else if idx < 0 ∧ (-idx).toNat ≤ L.stack.length then .slot ((-idx).toNat - 1)
  else .invalid

def lua_gettop (L : lua_State) : Int := L.stack.length

/-- The tag of the value at an index, `LUA_TNONE` for an absent one; `none` when the
index is not acceptable. -/
def lua_type (L : lua_State) (idx : Int) : Option Int :=
  match index2adr L idx with
  | .slot d => (L.stack.get? d).map LuaValue.ttype
  | .absent => some LUA_TNONE
  | .invalid => none

/-- The value at an index, `nil` where there is none. -/
def lua_value (L : lua_State) (idx : Int) : LuaValue :=
  match index2adr L idx with
  | .slot d => (L.stack.get? d).getD .nil
  | _ => .nil

/-- The number at an index (bit pattern); 0 for a value that is not a number. -/
def lua_tonumber (L : lua_State) (idx : Int) : lua_Number :=
  match lua_value L idx with
  | .number n => n
  | _ => 0

/-- The truth value at an index as a C `int`: 0 for `nil` and `false`, else 1. -/
def lua_toboolean (L : lua_State) (idx : Int) : Int :=
  match lua_value L idx with
  | .nil => 0
  | .boolean false => 0
  | _ => 1

/-- The bytes of the string at an index, without the terminator that follows them in
memory; `len` of the C API is the length of this list. -/
def lua_tolstring (L : lua_State) (idx : Int) : List Byte :=
  match lua_value L idx with
  | .string s => s
  | _ => []

def lua_pushnil (L : lua_State) : lua_State := ⟨.nil :: L.stack⟩
def lua_pushnumber (L : lua_State) (n : lua_Number) : lua_State := ⟨.number n :: L.stack⟩
def lua_pushboolean (L : lua_State) (b : Int) : lua_State :=
  ⟨.boolean (decide (b ≠ 0)) :: L.stack⟩
def lua_newtable (L : lua_State) : lua_State := ⟨.table .empty :: L.stack⟩

/-- Pushes a copy of the zero-terminated string `s` (given without its terminator). -/
def lua_pushstring (L : lua_State) (s : List Byte) : lua_State := ⟨.string s :: L.stack⟩

/-- Pops `n` values; popping more than the stack holds violates the API. -/
def lua_pop (L : lua_State) (n : Nat) : Option lua_State :=
  if n ≤ L.stack.length then some ⟨L.stack.drop n⟩ else none

/-! ### Tables: raw equality, traversal, raw assignment -/

/-- Whether a bit pattern is a NaN. -/
def lua_Number.isNaN (n : lua_Number) : Bool :=
  (n.val / 4503599627370496) % 2048 = 2047 ∧ n.val % 4503599627370496 ≠ 0

/-- Equality of two numbers as C doubles (`luai_numeq`): NaN equals nothing, the two
zeros are equal, any other number equals only its own bit pattern. -/
def luai_numeq (a b : lua_Number) : Bool :=
  !a.isNaN && !b.isNaN &&
    (decide (a = b) || (a.val % 9223372036854775808 = 0 ∧ b.val % 9223372036854775808 = 0))

/-- Raw equality of two values (`luaO_rawequalObj`); tables are compared by contents. -/
def rawequal : LuaValue → LuaValue → Bool
  | .number a, .number b => luai_numeq a b
  | a, b => decide (a = b)

/-- The first pair of a table. -/
def LuaTable.first : LuaTable → Option (LuaValue × LuaValue)
  | .empty => none
  | .cons k v _ => some (k, v)

/-- The pair that follows the given key in traversal order: `none` when the key is not
in the table, `some none` when it is the last one. -/
def LuaTable.after (key : LuaValue) : LuaTable → Option (Option (LuaValue × LuaValue))
  | .empty => none
  | .cons k _ rest => if rawequal k key then some rest.first else rest.after key

/-- One traversal step (`luaH_next`): from `nil` the first pair, from a key the pair
after it. -/
def luaH_next (t : LuaTable) (key : LuaValue) : Option (Option (LuaValue × LuaValue)) :=
  if key = .nil then some t.first else t.after key

/-- Raw assignment `t[key] = val`: assigning `nil` removes the key, a present key
gets the new value in place, a new key is added at the end of the traversal order. -/
def LuaTable.set (key val : LuaValue) : LuaTable → LuaTable
  | .empty => if val = .nil then .empty else .cons key val .empty
  | .cons k v rest =>
    if rawequal k key then (if val = .nil then rest else .cons k val rest)
    else .cons k v (rest.set key val)

/-- Pops a key and pushes the next (key, value) pair of the table at `idx`, returning 1,
or pushes nothing and returns 0 after the last pair.  The index is resolved before the
key is popped. -/
def lua_next (L : lua_State) (idx : Int) : Except Failure (Int × lua_State) :=
  match index2adr L idx with
  | .slot d =>
    match L.stack.get? d, L.stack with
    | some (.table t), key :: rest =>
      match luaH_next t key with
      | none => .error (.luaError "invalid key to 'next'")
      | some none => .ok (0, ⟨rest⟩)
      | some (some (k, v)) => .ok (1, ⟨v :: k :: rest⟩)
    | _, _ => .error .apiViolation
  | _ => .error .apiViolation

/-- Does `t[k] = v` for the table `t` at `idx`, the value `v` on the top and the key `k`
just below it, and pops both.  When the table is one of the two popped slots the
assignment leaves no trace on the stack. -/
def lua_rawset (L : lua_State) (idx : Int) : Except Failure lua_State :=
  match index2adr L idx with
  | .slot d =>
    match L.stack.get? d, L.stack with
    | some (.table t), v :: k :: rest =>
      if k = .nil then .error (.luaError "table index is nil")
      else if (match k with | .number n => n.isNaN | _ => false) then
        .error (.luaError "table index is NaN")
      else if 2 ≤ d then .ok ⟨rest.set (d - 2) (.table (t.set k v))⟩
      else .ok ⟨rest⟩
    | _, _ => .error .apiViolation
  | _ => .error .apiViolation

/-! ## The input buffer -/

/-- The memory block a decoder reads: `data` lies at the addresses `addr`,
`addr + 1`, ...; no other address is readable. -/
structure Buffer where
  addr : Nat
  data : List Byte
  deriving DecidableEq

/-- The `n` bytes at address `p`, or `none` when some of them lie outside the block. -/
def Buffer.read (m : Buffer) (p n : Nat) : Option (List Byte) :=
  if m.addr ≤ p ∧ p + n ≤ m.addr + m.data.length then
    some ((m.data.drop (p - m.addr)).take n)
  else none

/-- The zero-terminated string at address `p`, without its terminator (what
`lua_pushstring` copies), or `none` when no zero byte follows inside the block. -/
def Buffer.c_string (m : Buffer) (p : Nat) : Option (List Byte) :=
  if m.addr ≤ p ∧ p < m.addr + m.data.length then
    if (0 : Byte) ∈ m.data.drop (p - m.addr) then
      some ((m.data.drop (p - m.addr)).takeWhile (fun b => b ≠ 0))
    else none
  else none

/-- The macro `TAKE(dst, length)`: `memcpy(&(dst), *bytes, (length)); *bytes += (length);`.
Returns the bytes copied and the advanced cursor. -/
def TAKE (m : Buffer) (bytes : Nat) (length : Nat) : Option (List Byte × Nat) :=
  match m.read bytes length with
  | some raw => some (raw, (bytes + length) % 18446744073709551616)
  | none => none

/-! ## `lua_serialize_value`, `lua_serialize_range` -/

/-- The largest `int`, `INT_MAX`. -/
def INT_MAX : Int := 2147483647

/-- The `guint` that a `size_t` expression becomes when it is passed for the `guint len`
parameter of `g_byte_array_append`: the value modulo `2 ^ 64` (`size_t` arithmetic),
reduced modulo `2 ^ 32`. -/
def guint_of_size_t (n : Nat) : Nat := n % 18446744073709551616 % 4294967296

mutual
/-- The function `lua_serialize_value(L, out, index)`; the state is the Lua state and the
contents of the byte array `out`.  In the string case `g_byte_array_append(out, s, len+1)`
copies as many bytes of the string and its terminator as the `guint` made of `len+1`
says. -/
def lua_serialize_value :
    Nat → lua_State → List Byte → Int → Outcome (lua_State × List Byte) Unit
  | 0, _, _, _ => .timeout
  | fuel + 1, L, out, index =>
    match lua_type L index with
    | none => .fail .apiViolation (L, out)
    | some type =>
      if type = LUA_TLIGHTUSERDATA ∨ type = LUA_TUSERDATA ∨ type = LUA_TFUNCTION
          ∨ type = LUA_TTHREAD then
        .fail (.luaError ("cannot serialize variable of type " ++ lua_typename type)) (L, out)
      else
        let out := out ++ bytes_of_int type
        if type = LUA_TNIL then .ok () (L, out)
        else if type = LUA_TNUMBER then
          let n := lua_tonumber L index
          .ok () (L, out ++ le_bytes 8 n.val)
        else if type = LUA_TBOOLEAN then
          let b := lua_toboolean L index
          .ok () (L, out ++ bytes_of_int b)
        else if type = LUA_TSTRING then
          let s := lua_tolstring L index
          let len := s.length
          let out := out ++ le_bytes 8 len
          .ok () (L, out ++ (s ++ [0]).take (guint_of_size_t (len + 1)))
        else if type = LUA_TTABLE then
          match lua_serialize_table fuel (lua_pushnil L) out index with
          | .ok _ (L, out) => .ok () (L, out ++ bytes_of_int LUA_TNONE)
          | .fail e st => .fail e st
          | .timeout => .timeout
        else .ok () (L, out)
/-- The loop `while (lua_next(L, index) != 0) { lua_serialize_range(L, out, -2, -1);
lua_pop(L, 1); }` of the table case. -/
def lua_serialize_table :
    Nat → lua_State → List Byte → Int → Outcome (lua_State × List Byte) Unit
  | 0, _, _, _ => .timeout
  | fuel + 1, L, out, index =>
    match lua_next L index with
    | .error e => .fail e (L, out)
    | .ok (r, L) =>
      if r ≠ 0 then
        match lua_serialize_range fuel L out (-2) (-1) with
        | .ok _ (L, out) =>
          match lua_pop L 1 with
          | some L => lua_serialize_table fuel L out index
          | none => .fail .apiViolation (L, out)
        | .fail e st => .fail e st
        | .timeout => .timeout
      else .ok () (L, out)
/-- The function `lua_serialize_range(L, out, start, end)`:
`for (int i = start; i <= end; i++) lua_serialize_value(L, out, i);`.  The argument `start`
plays the counter `i`; incrementing it at `INT_MAX` overflows. -/
def lua_serialize_range :
    Nat → lua_State → List Byte → Int → Int → Outcome (lua_State × List Byte) Unit
  | 0, _, _, _, _ => .timeout
  | fuel + 1, L, out, start, end_ =>
    if start ≤ end_ then
      match lua_serialize_value fuel L out start with
      | .ok _ (L, out) =>
        if INT_MAX ≤ start then .fail .intOverflow (L, out)
        else lua_serialize_range fuel L out (start + 1) end_
      | .fail e st => .fail e st
      | .timeout => .timeout
    else .ok () (L, out)
end

/-! ## `lua_deserialize_value`, `lua_deserialize_range` -/

/-- The statement `assert(lua_gettop(L) - top == 1); return 1;`. -/
def assert_one_pushed (top : Int) (L : lua_State) (bytes : Nat) :
    Outcome (lua_State × Nat) Int :=
  if lua_gettop L - top = 1 then .ok 1 (L, bytes) else .fail .assertionFailed (L, bytes)

mutual
/-- The function `lua_deserialize_value(L, bytes)`; the state is the Lua state and the
cursor `*bytes`, an address into the buffer `m`. -/
def lua_deserialize_value :
    Nat → lua_State → Buffer → Nat → Outcome (lua_State × Nat) Int
  | 0, _, _, _ => .timeout
  | fuel + 1, L, m, bytes =>
    match TAKE m bytes 4 with
    | none => .fail .outOfBounds (L, bytes)
    | some (raw, bytes) =>
      let type := int_of_bytes raw
      let top := lua_gettop L
      if type = LUA_TNIL then assert_one_pushed top (lua_pushnil L) bytes
      else if type = LUA_TNUMBER then
        match TAKE m bytes 8 with
        | none => .fail .outOfBounds (L, bytes)
        | some (n, bytes) =>
          assert_one_pushed top (lua_pushnumber L (Fin.ofNat (le_value n))) bytes
      else if type = LUA_TBOOLEAN then
        match TAKE m bytes 4 with
        | none => .fail .outOfBounds (L, bytes)
        | some (b, bytes) =>
          assert_one_pushed top (lua_pushboolean L (int_of_bytes b)) bytes
      else if type = LUA_TSTRING then
        match TAKE m bytes 8 with
        | none => .fail .outOfBounds (L, bytes)
        | some (raw, bytes) =>
          let len := le_value raw % 18446744073709551616
          match m.c_string bytes with
          | none => .fail .outOfBounds (L, bytes)
          | some s =>
            assert_one_pushed top (lua_pushstring L s)
              ((bytes + (len + 1) % 18446744073709551616) % 18446744073709551616)
      else if type = LUA_TTABLE then
        match lua_deserialize_table fuel (lua_newtable L) m bytes with
        | .ok _ (L, bytes) => assert_one_pushed top L bytes
        | .fail e st => .fail e st
        | .timeout => .timeout
      else if type = LUA_TNONE then .ok 0 (L, bytes)
      else assert_one_pushed top L bytes
/-- The loop `while (lua_deserialize_value(L, bytes) == 1) { lua_deserialize_value(L, bytes);
lua_rawset(L, -3); }` of the table case. -/
def lua_deserialize_table :
    Nat → lua_State → Buffer → Nat → Outcome (lua_State × Nat) Unit
  | 0, _, _, _ => .timeout
  | fuel + 1, L, m, bytes =>
    match lua_deserialize_value fuel L m bytes with
    | .ok r (L, bytes) =>
      if r = 1 then
        match lua_deserialize_value fuel L m bytes with
        | .ok _ (L, bytes) =>
          match lua_rawset L (-3) with
          | .ok L => lua_deserialize_table fuel L m bytes
          | .error e => .fail e (L, bytes)
        | .fail e st => .fail e st
        | .timeout => .timeout
      else .ok () (L, bytes)
    | .fail e st => .fail e st
    | .timeout => .timeout
end

/-- The loop `do { lua_deserialize_value(L, &bytes); i++; } while (bytes < in + length);`
followed by `return i;`.  The first argument bounds the iterations, `fuel` is handed to
each call of `lua_deserialize_value`; incrementing the `int i` at `INT_MAX` overflows. -/
def lua_deserialize_range_loop (fuel : Nat) (m : Buffer) (length : Nat) :
    Nat → lua_State → Nat → Int → Outcome (lua_State × Nat) Int
  | 0, _, _, _ => .timeout
  | n + 1, L, bytes, i =>
    match lua_deserialize_value fuel L m bytes with
    | .ok _ (L, bytes) =>
      if INT_MAX ≤ i then .fail .intOverflow (L, bytes)
      else
        let i := i + 1
        if bytes < (m.addr + length) % 18446744073709551616 then
          lua_deserialize_range_loop fuel m length n L bytes i
        else .ok i (L, bytes)
    | .fail e st => .fail e st
    | .timeout => .timeout

/-- The function `lua_deserialize_range(L, in, length)`: `in` is the address of the buffer
`m`, `length` a `guint`.  Returns `i` and leaves the final cursor in the state. -/
def lua_deserialize_range (fuel : Nat) (L : lua_State) (m : Buffer) (length : Nat) :
    Outcome (lua_State × Nat) Int :=
  lua_deserialize_range_loop fuel m length fuel L m.addr 0

/-! ## `msg_recv` -/

inductive GIOStatus where
  | G_IO_STATUS_ERROR
  | G_IO_STATUS_NORMAL
  | G_IO_STATUS_EOF
  | G_IO_STATUS_AGAIN
  deriving DecidableEq

/-- A channel, given by what its next reads deliver: each read reports a status and
supplies some bytes, of which at most the requested count are handed over.  A channel
with nothing left reports end of stream. -/
structure GIOChannel where
  reads : List (GIOStatus × List Byte)
  deriving DecidableEq

/-- The call `g_io_channel_read_chars(channel, buf, count, NULL, NULL)`: returns the
status, the contents of the `count` bytes at `buf` after the call (the bytes delivered,
then what `buf` held before) and the channel.  A read of zero bytes returns at once. -/
def g_io_channel_read_chars (channel : GIOChannel) (buf : List Byte) (count : Nat) :
    GIOStatus × List Byte × GIOChannel :=
  if count = 0 then (.G_IO_STATUS_NORMAL, buf, channel)
  else
    match channel.reads with
    | [] => (.G_IO_STATUS_EOF, buf, channel)
    | (s, d) :: rest => (s, d.take count ++ buf.drop (d.take count).length, ⟨rest⟩)

/-- The condition flag `G_IO_IN` (GLib). -/
def G_IO_IN : Nat := 1

/-- Modelled from the spec: the declaration of `msg_header_t` is in `common/msg.h`, which
is missing; the spec gives the header as the kind, a 32-bit enumerated tag, followed by
the payload length, an unsigned 32-bit byte count. -/
structure msg_header_t where
  type : Nat
  length : Nat
  deriving DecidableEq

/-- Modelled from the spec: `sizeof(msg_header_t)`, two 32-bit fields. -/
def sizeof_header : Nat := 8

/-- Modelled from the spec: the header held by the 8 bytes of a `msg_header_t` object
(kind first, then length). -/
def msg_header_t.of_bytes (raw : List Byte) : msg_header_t :=
  ⟨le_value (raw.take 4), le_value ((raw.drop 4).take 4)⟩

/-- An uninitialised block of `n` bytes (a local variable, `g_alloca(n)`): its contents
are whatever the stack held, given by `junk`. -/
def g_alloca (junk : Nat → Byte) (n : Nat) : List Byte := (List.range n).map junk

/-- One invocation `msg_recv_<name>(msg, length)` of a message handler. -/
structure HandlerCall where
  name : String
  msg : List Byte
  length : Nat
  deriving DecidableEq

/-- How `msg_recv` ends. -/
inductive MsgResult where
  /-- The statement `return TRUE;` (or `FALSE`). -/
  | returned (value : Bool)
  /-- Modelled from the spec: `fatal(...)`, defined outside `msg.c`, terminates the
  session with a diagnostic and does not return. -/
  | fatal (diagnostic : String)
  /-- The check `assert(cond & G_IO_IN)` failed. -/
  | assertionFailed
  deriving DecidableEq

/-- What one call of `msg_recv` did: the handlers it invoked, in order, how it ended,
and the channel it left. -/
structure MsgOutcome where
  calls : List HandlerCall
  result : MsgResult
  channel : GIOChannel
  deriving DecidableEq

/-- The first read of `msg_recv`: status, the header object after the read, channel. -/
def msg_recv_read_header (junk : Nat → Byte) (channel : GIOChannel) :
    GIOStatus × msg_header_t × GIOChannel :=
  let r := g_io_channel_read_chars channel (g_alloca junk sizeof_header) sizeof_header
  (r.1, msg_header_t.of_bytes r.2.1, r.2.2)

/-- The second read of `msg_recv`, into `g_alloca(header.length)`: status, the payload
buffer after the read, channel. -/
def msg_recv_read_payload (junk : Nat → Byte) (channel : GIOChannel) (header : msg_header_t) :
    GIOStatus × List Byte × GIOChannel :=
  g_io_channel_read_chars channel (g_alloca junk header.length) header.length

/-- The function `msg_recv(channel, cond, user_data)`.  `MSG_TYPES` is the X-macro list
of `common/msg.h` (missing): the message names with the values of their `MSG_TYPE_<name>`
enumerators.  The status of either read is inspected by a `switch` whose two branches
both only `break`. -/
def msg_recv (MSG_TYPES : List (String × Nat)) (junk : Nat → Byte)
    (channel : GIOChannel) (cond : Nat) : MsgOutcome :=
  if cond &&& G_IO_IN = 0 then ⟨[], .assertionFailed, channel⟩
  else
    /- Read the message header -/
    let (_s, header, channel) := msg_recv_read_header junk channel
    /- Read the message body -/
    let (_s, payload, channel) := msg_recv_read_payload junk channel header
    /- Dispatch the message -/
    match MSG_TYPES.find? (fun x => x.2 = header.type) with
    | some (name, _) => ⟨[⟨name, payload, header.length⟩], .returned true, channel⟩
    | none => ⟨[], .fatal "Web extension received message with an invalid type", channel⟩

/-! ## Sample data -/

/-- The table `{ d = true }`. -/
def nested1 : LuaTable := .cons (.string [100]) (.boolean true) .empty
/-- The table `{ c = { d = true } }`. -/
def nested2 : LuaTable := .cons (.string [99]) (.table nested1) .empty
/-- The table `{ b = { c = { d = true } } }`. -/
def nested3 : LuaTable := .cons (.string [98]) (.table nested2) .empty
/-- The table `{ a = { b = { c = { d = true } } } }`: tables as values, four deep. -/
def nested4 : LuaTable := .cons (.string [97]) (.table nested3) .empty

/-- The bit pattern of the number `1.0`. -/
def number_one : lua_Number := 4607182418800017408

/-- A pair stream whose key `1.0` is followed directly by the `LUA_TNONE` sentinel:
table tag, number tag, the 8 bytes of `1.0`, sentinel, sentinel. -/
def unpaired_key_stream : List Byte :=
  [5, 0, 0, 0, 3, 0, 0, 0, 0, 0, 0, 0, 0, 0, 240, 63, 255, 255, 255, 255, 255, 255, 255, 255]

/-- Two message kinds, standing for the list `MSG_TYPES`. -/
def sample_kinds : List (String × Nat) := [("lua_require_module", 0), ("lua_msg", 1)]

/-- A channel that delivers a full header (kind 1, length 10) and then 9 payload bytes. -/
def short_payload_channel : GIOChannel :=
  ⟨[(.G_IO_STATUS_NORMAL, [1, 0, 0, 0, 10, 0, 0, 0]),
    (.G_IO_STATUS_NORMAL, [1, 2, 3, 4, 5, 6, 7, 8, 9])]⟩

/-! ## The wire layout and the tables it restores -/

/-- The value a stack index designates; `none` for an absent or unacceptable index. -/
def stack_value (L : lua_State) (idx : Int) : Option LuaValue :=
  match index2adr L idx with
  | .slot d => L.stack.get? d
  | _ => none

/-- The scalars of the restricted round trip: `nil`, booleans, numbers, and strings that
contain no zero byte and whose length plus one (the terminator) fits a `guint`. -/
def LuaValue.isScalar : LuaValue → Bool
  | .nil => true
  | .boolean _ => true
  | .number _ => true
  | .string s => decide ((0 : Byte) ∉ s) && decide (s.length + 1 < 4294967296)
  | _ => false

/-- The bytes that `lua_serialize_value` writes for a scalar (theorem `scalar_serialize`):
the tag, then nothing for `nil`, the `int` 0 or 1 for a boolean, the 8 bytes of a number,
or the 8-byte length, the bytes and the terminator of a string. -/
def scalar_wire : LuaValue → List Byte
  | .nil => bytes_of_int LUA_TNIL
  | .boolean b => bytes_of_int LUA_TBOOLEAN ++ bytes_of_int (if b then 1 else 0)
  | .number n => bytes_of_int LUA_TNUMBER ++ le_bytes 8 n.val
  | .string s => bytes_of_int LUA_TSTRING ++ le_bytes 8 s.length ++ (s ++ [0])
  | _ => []

/-- The outcome of a serializer run on an empty byte array, seen from a byte array that
already held `out`. -/
def Outcome.prepend (out : List Byte) :
    Outcome (lua_State × List Byte) Unit → Outcome (lua_State × List Byte) Unit
  | .ok u (L, o) => .ok u (L, out ++ o)
  | .fail e (L, o) => .fail e (L, out ++ o)
  | .timeout => .timeout

/-! ### Sample data for the layout and decoding claims -/

/-- The table `{ a = {} }`: a table as a value. -/
def table_with_table : LuaTable := .cons (.string [97]) (.table .empty) .empty

/-- The table `{ a = f }` for a function `f`: an unserializable value inside a table. -/
def table_with_function : LuaTable := .cons (.string [97]) (.function 1) .empty

theorem lua_deserialize_fuel_mono (n : Nat) :
    (∀ L m b k, lua_deserialize_value n L m b ≠ .timeout →
      lua_deserialize_value (n + k) L m b = lua_deserialize_value n L m b) ∧
    (∀ L m b k, lua_deserialize_table n L m b ≠ .timeout →
      lua_deserialize_table (n + k) L m b = lua_deserialize_table n L m b) := by
  induction n with
  | zero =>
    constructor <;> intro L m b k h
    · simp [lua_deserialize_value] at h
    · simp [lua_deserialize_table] at h
  | succ n ih =>
    obtain ⟨ihv, iht⟩ := ih
    constructor
    · intro L m b k h
      have e : n + 1 + k = (n + k) + 1 := by omega
      rw [e]
      simp only [lua_deserialize_value] at h ⊢
      cases hT : TAKE m b 4 with
      | none => rfl
      | some p =>
        obtain ⟨raw, b1⟩ := p
        simp only [hT] at h ⊢
        by_cases htab : int_of_bytes raw = LUA_TTABLE
        · have h1 : lua_deserialize_table n (lua_newtable L) m b1 ≠ .timeout := by
            intro hc
            simp [htab, hc, LUA_TTABLE, LUA_TNIL, LUA_TNUMBER, LUA_TBOOLEAN, LUA_TSTRING] at h
          simp only [iht _ _ _ k h1]
        · simp only [htab, if_false]
    · intro L m b k h
      have e : n + 1 + k = (n + k) + 1 := by omega
      rw [e]
      simp only [lua_deserialize_table] at h ⊢
      have h1 : lua_deserialize_value n L m b ≠ .timeout := by
        intro hc
        simp [hc] at h
      rw [ihv _ _ _ k h1]
      cases hv : lua_deserialize_value n L m b with
      | timeout => exact absurd hv h1
      | fail e st => rfl
      | ok r st =>
        obtain ⟨L1, b1⟩ := st
        simp only [hv] at h ⊢
        by_cases hr : r = 1
        · simp only [hr, if_true] at h ⊢
          have h2 : lua_deserialize_value n L1 m b1 ≠ .timeout := by
            intro hc
            simp [hc] at h
          rw [ihv _ _ _ k h2]
          cases hv2 : lua_deserialize_value n L1 m b1 with
          | timeout => exact absurd hv2 h2
          | fail e st => rfl
          | ok r2 st2 =>
            obtain ⟨L2, b2⟩ := st2
            simp only [hv2] at h ⊢
            cases hs : lua_rawset L2 (-3) with
            | error e => rfl
            | ok L3 =>
              simp only [hs] at h ⊢
              exact iht _ _ _ k h
        · simp only [hr, if_false]

theorem lua_serialize_fuel_mono (n : Nat) :
    (∀ L out i k, lua_serialize_value n L out i ≠ .timeout →
      lua_serialize_value (n + k) L out i = lua_serialize_value n L out i) ∧
    (∀ L out i k, lua_serialize_table n L out i ≠ .timeout →
      lua_serialize_table (n + k) L out i = lua_serialize_table n L out i) ∧
    (∀ L out s e k, lua_serialize_range n L out s e ≠ .timeout →
      lua_serialize_range (n + k) L out s e = lua_serialize_range n L out s e) := by
  induction n with
  | zero =>
    refine ⟨?_, ?_, ?_⟩
    · intro L out i k h; simp [lua_serialize_value] at h
    · intro L out i k h; simp [lua_serialize_table] at h
    · intro L out s e k h; simp [lua_serialize_range] at h
  | succ n ih =>
    obtain ⟨ihv, iht, ihr⟩ := ih
    refine ⟨?_, ?_, ?_⟩
    · intro L out i k h
      have e : n + 1 + k = (n + k) + 1 := by omega
      rw [e]
      simp only [lua_serialize_value] at h ⊢
      cases hT : lua_type L i with
      | none => rfl
      | some ty =>
        simp only [hT] at h ⊢
        by_cases htab : ty = LUA_TTABLE
        · subst htab
          have h1 : lua_serialize_table n (lua_pushnil L) (out ++ bytes_of_int LUA_TTABLE) i
              ≠ .timeout := by
            intro hc
            rw [hc] at h
            simp [LUA_TTABLE, LUA_TNIL, LUA_TNUMBER, LUA_TBOOLEAN, LUA_TSTRING,
              LUA_TLIGHTUSERDATA, LUA_TUSERDATA, LUA_TFUNCTION, LUA_TTHREAD] at h
          simp only [iht _ _ _ k h1]
        · simp only [htab, if_false]
    · intro L out i k h
      have e : n + 1 + k = (n + k) + 1 := by omega
      rw [e]
      simp only [lua_serialize_table] at h ⊢
      cases hn : lua_next L i with
      | error e => rfl
      | ok p =>
        obtain ⟨r, L1⟩ := p
        simp only [hn] at h ⊢
        by_cases hr : r = 0
        · simp [hr]
        · simp only [ne_eq, hr, not_false_eq_true, if_true] at h ⊢
          have h1 : lua_serialize_range n L1 out (-2) (-1) ≠ .timeout := by
            intro hc
            simp [hc] at h
          rw [ihr _ _ _ _ k h1]
          cases hv : lua_serialize_range n L1 out (-2) (-1) with
          | timeout => exact absurd hv h1
          | fail e st => rfl
          | ok u st =>
            obtain ⟨L2, out2⟩ := st
            simp only [hv] at h ⊢
            cases hp : lua_pop L2 1 with
            | none => rfl
            | some L3 =>
              simp only [hp] at h ⊢
              exact iht _ _ _ k h
    · intro L out s e k h
      have e1 : n + 1 + k = (n + k) + 1 := by omega
      rw [e1]
      simp only [lua_serialize_range] at h ⊢
      by_cases hle : s ≤ e
      · simp only [hle, if_true] at h ⊢
        have h1 : lua_serialize_value n L out s ≠ .timeout := by
          intro hc
          simp [hc] at h
        rw [ihv _ _ _ k h1]
        cases hv : lua_serialize_value n L out s with
        | timeout => exact absurd hv h1
        | fail e st => rfl
        | ok u st =>
          obtain ⟨L2, out2⟩ := st
          simp only [hv] at h ⊢
          by_cases hmax : INT_MAX ≤ s
          · simp only [hmax, if_true]
          · simp only [hmax, if_false] at h ⊢
            exact ihr _ _ _ _ k h
      · simp only [hle, if_false]

theorem lua_deserialize_range_loop_fuel_mono (fuel : Nat) (m : Buffer) (length : Nat)
    (mono : ∀ L b k, lua_deserialize_value fuel L m b ≠ .timeout →
      lua_deserialize_value (fuel + k) L m b = lua_deserialize_value fuel L m b)
    (n : Nat) : ∀ L b i k j, lua_deserialize_range_loop fuel m length n L b i ≠ .timeout →
      lua_deserialize_range_loop (fuel + k) m length (n + j) L b i =
        lua_deserialize_range_loop fuel m length n L b i := by
  induction n with
  | zero => intro L b i k j h; simp [lua_deserialize_range_loop] at h
  | succ n ih =>
    intro L b i k j h
    have e : n + 1 + j = (n + j) + 1 := by omega
    rw [e]
    simp only [lua_deserialize_range_loop] at h ⊢
    have h1 : lua_deserialize_value fuel L m b ≠ .timeout := by
      intro hc
      simp [hc] at h
    rw [mono _ _ k h1]
    cases hv : lua_deserialize_value fuel L m b with
    | timeout => exact absurd hv h1
    | fail e st => rfl
    | ok r st =>
      obtain ⟨L1, b1⟩ := st
      simp only [hv] at h ⊢
      by_cases hmax : INT_MAX ≤ i
      · simp only [hmax, if_true]
      · simp only [hmax, if_false] at h ⊢
        split
        · rename_i hlt
          simp only [hlt, if_true] at h
          exact ih _ _ _ k j h
        · rfl

theorem lua_deserialize_value_enough_fuel (n k : Nat) (L : lua_State) (m : Buffer) (b : Nat)
    (r : Outcome (lua_State × Nat) Int) (h : lua_deserialize_value n L m b = r)
    (hr : r ≠ .timeout) : lua_deserialize_value (k + n) L m b = r := by
  rw [Nat.add_comm, (lua_deserialize_fuel_mono n).1 L m b k (by rw [h]; exact hr), h]

theorem lua_serialize_value_enough_fuel (n k : Nat) (L : lua_State) (out : List Byte)
    (i : Int) (r : Outcome (lua_State × List Byte) Unit)
    (h : lua_serialize_value n L out i = r) (hr : r ≠ .timeout) :
    lua_serialize_value (k + n) L out i = r := by
  rw [Nat.add_comm, (lua_serialize_fuel_mono n).1 L out i k (by rw [h]; exact hr), h]

theorem lua_serialize_range_enough_fuel (n k : Nat) (L : lua_State) (out : List Byte)
    (s e : Int) (r : Outcome (lua_State × List Byte) Unit)
    (h : lua_serialize_range n L out s e = r) (hr : r ≠ .timeout) :
    lua_serialize_range (k + n) L out s e = r := by
  rw [Nat.add_comm, (lua_serialize_fuel_mono n).2.2 L out s e k (by rw [h]; exact hr), h]

theorem lua_deserialize_range_enough_fuel (n k : Nat) (L : lua_State) (m : Buffer)
    (length : Nat) (r : Outcome (lua_State × Nat) Int)
    (h : lua_deserialize_range n L m length = r) (hr : r ≠ .timeout) :
    lua_deserialize_range (k + n) L m length = r := by
  unfold lua_deserialize_range at h ⊢
  rw [Nat.add_comm, lua_deserialize_range_loop_fuel_mono n m length
    (fun L b k => (lua_deserialize_fuel_mono n).1 L m b k) n L m.addr 0 k k
    (by rw [h]; exact hr), h]

/-! ## Dispatch table lookup -/

theorem find_kind_of_mem (MSG_TYPES : List (String × Nat)) (name : String) (kind : Nat)
    (hmem : (name, kind) ∈ MSG_TYPES) (hnodup : (MSG_TYPES.map Prod.snd).Nodup) :
    MSG_TYPES.find? (fun x => x.2 = kind) = some (name, kind) := by
  induction MSG_TYPES with
  | nil => simp at hmem
  | cons x xs ih =>
    simp only [List.map_cons, List.nodup_cons] at hnodup
    rcases List.mem_cons.mp hmem with h | h
    · subst h
      simp
    · have hne : x.2 ≠ kind := by
        intro hx
        apply hnodup.1
        rw [hx]
        exact List.mem_map.mpr ⟨(name, kind), h, rfl⟩
      simp [List.find?_cons, hne, ih h hnodup.2]

theorem find_kind_none (MSG_TYPES : List (String × Nat)) (kind : Nat)
    (h : ∀ x ∈ MSG_TYPES, x.2 ≠ kind) :
    MSG_TYPES.find? (fun x => x.2 = kind) = none := by
  simp [List.find?_eq_none]
  intro a b hab
  exact h (a, b) hab

/-! ## The value codec: C1, C2, C3, C10 -/

/-- C1 (fails on the code).  The string `a\0b` at stack index 1 is serialized as tag, length 3,
the bytes `61 00 62` and the terminator; `lua_deserialize_value` on these bytes returns 1,
moves the cursor past all 16 bytes, but pushes the one-byte string `a`, which is not the
string that was serialized.  This holds for every positive fuel. -/
theorem roundtrip_loses_bytes_after_zero (fuel : Nat) :
    lua_serialize_value (fuel + 1) ⟨[.string [97, 0, 98]]⟩ [] 1 =
      .ok () (⟨[.string [97, 0, 98]]⟩,
        [4, 0, 0, 0, 3, 0, 0, 0, 0, 0, 0, 0, 97, 0, 98, 0]) ∧
    lua_deserialize_value (fuel + 1) ⟨[]⟩
        ⟨4096, [4, 0, 0, 0, 3, 0, 0, 0, 0, 0, 0, 0, 97, 0, 98, 0]⟩ 4096 =
      .ok 1 (⟨[.string [97]]⟩, 4112) ∧
    LuaValue.string [97] ≠ LuaValue.string [97, 0, 98] :=
  ⟨lua_serialize_value_enough_fuel 1 fuel _ _ _ _ (by decide) (by decide),
   lua_deserialize_value_enough_fuel 1 fuel _ _ _ _ (by decide) (by decide),
   by decide⟩

/-- C2 (fails on the code).  The values `nil` and `a\0b` at stack positions 1 and 2 are
serialized by `lua_serialize_range(1, 2)` into 20 bytes; `lua_deserialize_range` on these
bytes with length 20 returns 2 but pushes `nil` and the one-byte string `a`. -/
theorem range_roundtrip_loses_bytes_after_zero (fuel : Nat) :
    lua_serialize_range (fuel + 3) ⟨[.string [97, 0, 98], .nil]⟩ [] 1 2 =
      .ok () (⟨[.string [97, 0, 98], .nil]⟩,
        [0, 0, 0, 0, 4, 0, 0, 0, 3, 0, 0, 0, 0, 0, 0, 0, 97, 0, 98, 0]) ∧
    lua_deserialize_range (fuel + 2) ⟨[]⟩
        ⟨4096, [0, 0, 0, 0, 4, 0, 0, 0, 3, 0, 0, 0, 0, 0, 0, 0, 97, 0, 98, 0]⟩ 20 =
      .ok 2 (⟨[.string [97], .nil]⟩, 4116) ∧
    [LuaValue.string [97], LuaValue.nil] ≠ [LuaValue.string [97, 0, 98], LuaValue.nil] :=
  ⟨lua_serialize_range_enough_fuel 3 fuel _ _ _ _ _ (by decide) (by decide),
   lua_deserialize_range_enough_fuel 2 fuel _ _ _ _ (by decide) (by decide),
   by decide⟩

/-- C3.  When the value at `index` is a light userdata, a userdata, a function or a thread,
`lua_serialize_value` raises the Lua error `cannot serialize variable of type <name>` and
the byte array `out` is what it was before the call: nothing, not even the tag, has been
appended.  (The Lua state is unchanged as well.) -/
theorem lua_serialize_value_rejects_unserializable (fuel : Nat) (L : lua_State)
    (out : List Byte) (index : Int) (type : Int)
    (htype : lua_type L index = some type)
    (hkind : type = LUA_TLIGHTUSERDATA ∨ type = LUA_TUSERDATA ∨ type = LUA_TFUNCTION
      ∨ type = LUA_TTHREAD) :
    lua_serialize_value (fuel + 1) L out index =
      .fail (.luaError ("cannot serialize variable of type " ++ lua_typename type)) (L, out) := by
  simp only [lua_serialize_value, htype]
  rw [if_pos hkind]

/-- Witness for C3: a function on the top of the stack, `out` holding three bytes. -/
theorem lua_serialize_value_rejects_unserializable_witness :
    lua_serialize_value (0 + 1) ⟨[.function 7, .nil]⟩ [1, 2, 3] (-1) =
      .fail (.luaError ("cannot serialize variable of type " ++ lua_typename LUA_TFUNCTION))
        (⟨[.function 7, .nil]⟩, [1, 2, 3]) :=
  lua_serialize_value_rejects_unserializable 0 ⟨[.function 7, .nil]⟩ [1, 2, 3] (-1)
    LUA_TFUNCTION (by decide) (by decide)

/-- C10 (fails on the code).  Serializing the table `{ a = { b = { c = { d = true } } } }`
held at stack index 1 never produces its encoding: after the table tag and the key `a`,
the inner table is serialized at index -1, `lua_pushnil` moves the top, and
`lua_next(L, -1)` is applied to the `nil` just pushed instead of the inner table, which
breaks the precondition of `lua_next`.  At that point `out` holds the outer tag, the key
and the inner tag only.  This holds for every fuel from 6 on. -/
theorem nested_table_not_serialized (fuel : Nat) :
    lua_serialize_value (fuel + 6) ⟨[.table nested4]⟩ [] 1 =
      .fail .apiViolation
        (⟨[.nil, .table nested3, .string [97], .table nested4]⟩,
         [5, 0, 0, 0, 4, 0, 0, 0, 1, 0, 0, 0, 0, 0, 0, 0, 97, 0, 5, 0, 0, 0]) :=
  lua_serialize_value_enough_fuel 6 fuel _ _ _ _ (by decide) (by decide)

/-! ## The range decoder: C4, C5, C6 -/

theorem lua_deserialize_range_loop_last (fuel : Nat) (m : Buffer) (length : Nat) (n : Nat) :
    ∀ (L : lua_State) (b : Nat) (i r : Int) (Lf : lua_State) (c : Nat),
      b < (m.addr + length) % 18446744073709551616 →
      lua_deserialize_range_loop fuel m length n L b i = .ok r (Lf, c) →
      ∃ L0 c0 r0, c0 < (m.addr + length) % 18446744073709551616 ∧
        lua_deserialize_value fuel L0 m c0 = .ok r0 (Lf, c) ∧
        (m.addr + length) % 18446744073709551616 ≤ c := by
  induction n with
  | zero => intro L b i r Lf c _ h; simp [lua_deserialize_range_loop] at h
  | succ n ih =>
    intro L b i r Lf c hb h
    simp only [lua_deserialize_range_loop] at h
    cases hv : lua_deserialize_value fuel L m b with
    | timeout => simp [hv] at h
    | fail e st => simp [hv] at h
    | ok r0 st =>
      obtain ⟨L1, b1⟩ := st
      simp only [hv] at h
      by_cases hmax : INT_MAX ≤ i
      · simp [hmax] at h
      · simp only [hmax, if_false] at h
        by_cases hlt : b1 < (m.addr + length) % 18446744073709551616
        · simp only [hlt, if_true] at h
          exact ih _ _ _ _ _ _ hlt h
        · simp only [hlt, if_false, Outcome.ok.injEq, Prod.mk.injEq] at h
          obtain ⟨_, hL, hc⟩ := h
          subst hL hc
          exact ⟨L, b, r0, hb, hv, Nat.le_of_not_lt hlt⟩

/-- C4 as stated is false: it is not the case that the cursor after every returning call of
`lua_deserialize_range` is at most `in + length`.  On a 12-byte buffer holding one encoded
number, decoded with declared length 4, the call returns with the cursor at `in + 12`. -/
theorem cursor_can_pass_declared_length :
    ¬ ∀ (fuel : Nat) (L : lua_State) (m : Buffer) (length : Nat) (i : Int)
        (Lf : lua_State) (c : Nat),
        lua_deserialize_range fuel L m length = .ok i (Lf, c) → c ≤ m.addr + length := by
  intro h
  have h1 := h 1 ⟨[]⟩ ⟨4096, [3, 0, 0, 0, 0, 0, 0, 0, 0, 0, 240, 63]⟩ 4 1
    ⟨[.number number_one]⟩ 4108 (by decide)
  simp at h1

/-- C4 (amended).  With a declared length above 0 and `in + length` inside the address
space, when `lua_deserialize_range` returns, its final cursor is where the decoding of one
value stopped, that value began at a cursor strictly below `in + length`, and the final
cursor is not below `in + length`: the declared length is checked between values only. -/
theorem cursor_passes_length_only_inside_last_value (fuel : Nat) (L : lua_State)
    (m : Buffer) (length : Nat) (i : Int) (Lf : lua_State) (c : Nat)
    (hlen : 0 < length) (haddr : m.addr + length < 18446744073709551616)
    (h : lua_deserialize_range fuel L m length = .ok i (Lf, c)) :
    ∃ L0 c0 r0, c0 < m.addr + length ∧
      lua_deserialize_value fuel L0 m c0 = .ok r0 (Lf, c) ∧ m.addr + length ≤ c := by
  have hmod : (m.addr + length) % 18446744073709551616 = m.addr + length :=
    Nat.mod_eq_of_lt haddr
  have := lua_deserialize_range_loop_last fuel m length fuel L m.addr 0 i Lf c
    (by rw [hmod]; omega) h
  rw [hmod] at this
  exact this

/-- Witness for C4 (amended): the 12-byte buffer with one number, declared length 4. -/
theorem cursor_passes_length_only_inside_last_value_witness :
    ∃ L0 c0 r0, c0 < 4096 + 4 ∧
      lua_deserialize_value 1 L0 ⟨4096, [3, 0, 0, 0, 0, 0, 0, 0, 0, 0, 240, 63]⟩ c0 =
        .ok r0 (⟨[.number number_one]⟩, 4108) ∧ 4096 + 4 ≤ 4108 :=
  cursor_passes_length_only_inside_last_value 1 ⟨[]⟩
    ⟨4096, [3, 0, 0, 0, 0, 0, 0, 0, 0, 0, 240, 63]⟩ 4 1 ⟨[.number number_one]⟩ 4108
    (by decide) (by decide) (by decide)

/-- C5 (fails on the code).  With a table in the slot below, decoding a table whose pair
stream has the key `1.0` followed directly by the `LUA_TNONE` sentinel performs
`lua_rawset(L, -3)` with the new table and the key as the two topmost values: the pair
(new table, `1.0`) is stored into the table of the slot below, both are popped, and at the
closing sentinel the check `assert(lua_gettop(L) - top == 1)` fails.  No protocol violation
is reported and a foreign stack slot has been altered.  This holds for every fuel from 4
on. -/
theorem unpaired_key_alters_slot_below (fuel : Nat) :
    lua_deserialize_value (fuel + 4) ⟨[.table .empty]⟩ ⟨4096, unpaired_key_stream⟩ 4096 =
      .fail .assertionFailed
        (⟨[.table (.cons (.table .empty) (.number number_one) .empty)]⟩, 4120) :=
  lua_deserialize_value_enough_fuel 4 fuel _ _ _ _ (by decide) (by decide)

/-- C6 (fails on the code).  With declared length 0 the `do ... while` loop still decodes
one value: on a buffer starting with a `LUA_TNIL` tag the call reads 4 bytes, pushes `nil`
and returns 1.  This holds for every positive fuel. -/
theorem zero_length_range_decodes_one_value (fuel : Nat) :
    lua_deserialize_range (fuel + 1) ⟨[]⟩ ⟨4096, [0, 0, 0, 0]⟩ 0 =
      .ok 1 (⟨[.nil]⟩, 4100) :=
  lua_deserialize_range_enough_fuel 1 fuel _ _ _ _ (by decide) (by decide)

/-! ## Message dispatch: C7, C8, C9 -/

/-- C7.  When the `type` field of the header that `msg_recv` read is the value of none of the
kinds in `MSG_TYPES`, `msg_recv` ends in `fatal` and has invoked no handler. -/
theorem msg_recv_unknown_kind_fatal (MSG_TYPES : List (String × Nat)) (junk : Nat → Byte)
    (channel : GIOChannel) (cond : Nat)
    (hcond : cond &&& G_IO_IN ≠ 0)
    (hkind : ∀ x ∈ MSG_TYPES, x.2 ≠ (msg_recv_read_header junk channel).2.1.type) :
    (msg_recv MSG_TYPES junk channel cond).calls = [] ∧
    (msg_recv MSG_TYPES junk channel cond).result =
      .fatal "Web extension received message with an invalid type" := by
  simp only [msg_recv, if_neg hcond, find_kind_none MSG_TYPES _ hkind, and_self]

/-- Witness for C7: a header of kind 7 where the kinds are 0 and 1. -/
theorem msg_recv_unknown_kind_fatal_witness :
    (msg_recv sample_kinds (fun _ => 170)
        ⟨[(.G_IO_STATUS_NORMAL, [7, 0, 0, 0, 2, 0, 0, 0]), (.G_IO_STATUS_NORMAL, [1, 2])]⟩
        G_IO_IN).calls = [] ∧
    (msg_recv sample_kinds (fun _ => 170)
        ⟨[(.G_IO_STATUS_NORMAL, [7, 0, 0, 0, 2, 0, 0, 0]), (.G_IO_STATUS_NORMAL, [1, 2])]⟩
        G_IO_IN).result = .fatal "Web extension received message with an invalid type" :=
  msg_recv_unknown_kind_fatal sample_kinds (fun _ => 170)
    ⟨[(.G_IO_STATUS_NORMAL, [7, 0, 0, 0, 2, 0, 0, 0]), (.G_IO_STATUS_NORMAL, [1, 2])]⟩
    G_IO_IN (by decide) (by decide)

/-- C8.  When the `type` field of the header that `msg_recv` read is the value of the kind
`name` of `MSG_TYPES` (whose values are pairwise distinct, as `case` labels are),
`msg_recv` invokes exactly one handler, `msg_recv_<name>`, with the payload buffer of its
second read and `header.length`, and returns `TRUE`. -/
theorem msg_recv_known_kind_dispatch (MSG_TYPES : List (String × Nat)) (junk : Nat → Byte)
    (channel : GIOChannel) (cond : Nat) (name : String) (kind : Nat)
    (hcond : cond &&& G_IO_IN ≠ 0)
    (hdistinct : (MSG_TYPES.map Prod.snd).Nodup)
    (hmem : (name, kind) ∈ MSG_TYPES)
    (hkind : (msg_recv_read_header junk channel).2.1.type = kind) :
    (msg_recv MSG_TYPES junk channel cond).calls =
      [⟨name,
        (msg_recv_read_payload junk (msg_recv_read_header junk channel).2.2
          (msg_recv_read_header junk channel).2.1).2.1,
        (msg_recv_read_header junk channel).2.1.length⟩] ∧
    (msg_recv MSG_TYPES junk channel cond).result = .returned true := by
  have hfind := find_kind_of_mem MSG_TYPES name kind hmem hdistinct
  rw [← hkind] at hfind
  simp only [msg_recv, if_neg hcond, hfind, and_self]

/-- Witness for C8: a header of kind 1 and length 2, followed by 2 payload bytes. -/
theorem msg_recv_known_kind_dispatch_witness :
    (msg_recv sample_kinds (fun _ => 170)
        ⟨[(.G_IO_STATUS_NORMAL, [1, 0, 0, 0, 2, 0, 0, 0]), (.G_IO_STATUS_NORMAL, [8, 9])]⟩
        G_IO_IN).calls = [⟨"lua_msg", [8, 9], 2⟩] ∧
    (msg_recv sample_kinds (fun _ => 170)
        ⟨[(.G_IO_STATUS_NORMAL, [1, 0, 0, 0, 2, 0, 0, 0]), (.G_IO_STATUS_NORMAL, [8, 9])]⟩
        G_IO_IN).result = .returned true :=
  msg_recv_known_kind_dispatch sample_kinds (fun _ => 170)
    ⟨[(.G_IO_STATUS_NORMAL, [1, 0, 0, 0, 2, 0, 0, 0]), (.G_IO_STATUS_NORMAL, [8, 9])]⟩
    G_IO_IN "lua_msg" 1 (by decide) (by decide) (by decide) (by decide)

/-- C9 (fails on the code).  The header declares kind 1 and length 10 and the channel then
delivers 9 bytes: `msg_recv` does not reject the message, it invokes the handler of kind 1
with a 10-byte buffer whose last byte was never written, and returns `TRUE`. -/
theorem short_payload_is_dispatched :
    msg_recv sample_kinds (fun _ => 170) short_payload_channel G_IO_IN =
      ⟨[⟨"lua_msg", [1, 2, 3, 4, 5, 6, 7, 8, 9, 170], 10⟩], .returned true, ⟨[]⟩⟩ := by
  decide

theorem length_le_bytes (w n : Nat) : (le_bytes w n).length = w := by
  induction w generalizing n with
  | zero => rfl
  | succ w ih => simp [le_bytes, ih]

theorem length_bytes_of_int (i : Int) : (bytes_of_int i).length = 4 := by
  simp [bytes_of_int, length_le_bytes]

/-! ## Reading the buffer -/

theorem lua_type_of_stack_value (L : lua_State) (idx : Int) (v : LuaValue)
    (h : stack_value L idx = some v) : lua_type L idx = some v.ttype := by
  unfold stack_value at h
  unfold lua_type
  cases hadr : index2adr L idx with
  | slot d => simp only [hadr] at h ⊢; rw [h]; rfl
  | absent => simp [hadr] at h
  | invalid => simp [hadr] at h

theorem lua_value_of_stack_value (L : lua_State) (idx : Int) (v : LuaValue)
    (h : stack_value L idx = some v) : lua_value L idx = v := by
  unfold stack_value at h
  unfold lua_value
  cases hadr : index2adr L idx with
  | slot d => simp only [hadr] at h ⊢; rw [h]; rfl
  | absent => simp [hadr] at h
  | invalid => simp [hadr] at h

theorem string_serialize (fuel : Nat) (L : lua_State) (out : List Byte) (idx : Int)
    (s : List Byte) (hv : stack_value L idx = some (.string s)) :
    lua_serialize_value (fuel + 1) L out idx =
      .ok () (L, out ++ (bytes_of_int LUA_TSTRING ++ le_bytes 8 s.length ++
        (s ++ [0]).take (guint_of_size_t (s.length + 1)))) := by
  have ht := lua_type_of_stack_value L idx _ hv
  have hval := lua_value_of_stack_value L idx _ hv
  simp only [lua_serialize_value, ht, LuaValue.ttype, lua_tolstring, hval]
  simp only [LUA_TNIL, LUA_TBOOLEAN, LUA_TNUMBER, LUA_TSTRING, LUA_TLIGHTUSERDATA,
    LUA_TUSERDATA, LUA_TFUNCTION, LUA_TTHREAD]
  simp only [show ((4 : Int) = 2 ∨ (4 : Int) = 7 ∨ (4 : Int) = 6 ∨ (4 : Int) = 8) = False by
    decide, show ((4 : Int) = 0) = False by decide, show ((4 : Int) = 3) = False by decide,
    show ((4 : Int) = 1) = False by decide, if_false, if_true, List.append_assoc]

theorem take_guint_of_short (s : List Byte) (h : s.length + 1 < 4294967296) :
    (s ++ [0]).take (guint_of_size_t (s.length + 1)) = s ++ [0] := by
  have e : guint_of_size_t (s.length + 1) = (s ++ [0]).length := by
    simp only [guint_of_size_t, List.length_append, List.length_cons, List.length_nil]
    omega
  rw [e, List.take_length]

theorem scalar_serialize (fuel : Nat) (L : lua_State) (out : List Byte) (idx : Int)
    (v : LuaValue) (hv : stack_value L idx = some v) (hs : v.isScalar = true) :
    lua_serialize_value (fuel + 1) L out idx = .ok () (L, out ++ scalar_wire v) := by
  have ht := lua_type_of_stack_value L idx v hv
  have hval := lua_value_of_stack_value L idx v hv
  cases v with
  | nil => simp [lua_serialize_value, ht, LuaValue.ttype, scalar_wire, LUA_TNIL,
      LUA_TLIGHTUSERDATA, LUA_TUSERDATA, LUA_TFUNCTION, LUA_TTHREAD]
  | boolean b =>
    cases b <;>
    simp [lua_serialize_value, ht, LuaValue.ttype, scalar_wire, LUA_TNIL, LUA_TBOOLEAN,
      LUA_TNUMBER, LUA_TLIGHTUSERDATA, LUA_TUSERDATA, LUA_TFUNCTION, LUA_TTHREAD,
      lua_toboolean, hval]
  | number n =>
    simp [lua_serialize_value, ht, LuaValue.ttype, scalar_wire, LUA_TNIL, LUA_TBOOLEAN,
      LUA_TNUMBER, LUA_TLIGHTUSERDATA, LUA_TUSERDATA, LUA_TFUNCTION, LUA_TTHREAD,
      lua_tonumber, hval]
  | string s =>
    have hlen : s.length + 1 < 4294967296 := by
      simp only [LuaValue.isScalar, Bool.and_eq_true, decide_eq_true_eq] at hs
      exact hs.2
    rw [string_serialize fuel L out idx s hv, take_guint_of_short s hlen]
    simp [scalar_wire]
  | lightuserdata p => simp [LuaValue.isScalar] at hs
  | table t => simp [LuaValue.isScalar] at hs
  | function id => simp [LuaValue.isScalar] at hs
  | userdata id => simp [LuaValue.isScalar] at hs
  | thread id => simp [LuaValue.isScalar] at hs

theorem assert_one_pushed_push (L : lua_State) (v : LuaValue) (c : Nat) :
    assert_one_pushed (lua_gettop L) ⟨v :: L.stack⟩ c = .ok 1 (⟨v :: L.stack⟩, c) := by
  simp [assert_one_pushed, lua_gettop]

/-- Induction over the pairs of a table. -/
@[induction_eliminator]
theorem LuaTable.pairs_induction {motive : LuaTable → Prop} (empty : motive .empty)
    (cons : ∀ k v rest, motive rest → motive (.cons k v rest)) : ∀ t, motive t
  | .empty => empty
  | .cons k v rest => cons k v rest (LuaTable.pairs_induction empty cons rest)

theorem lua_serialize_range_succ (fuel : Nat) (L : lua_State) (out : List Byte)
    (start end_ : Int) :
    lua_serialize_range (fuel + 1) L out start end_ =
      if start ≤ end_ then
        match lua_serialize_value fuel L out start with
        | .ok _ (L, out) =>
          if INT_MAX ≤ start then .fail .intOverflow (L, out)
          else lua_serialize_range fuel L out (start + 1) end_
        | .fail e st => .fail e st
        | .timeout => .timeout
      else .ok () (L, out) := by
  simp only [lua_serialize_range]

theorem lua_serialize_value_table (fuel : Nat) (L : lua_State) (out : List Byte)
    (index : Int) (h : lua_type L index = some LUA_TTABLE) :
    lua_serialize_value (fuel + 1) L out index =
      match lua_serialize_table fuel (lua_pushnil L) (out ++ bytes_of_int LUA_TTABLE) index with
      | .ok _ (L, out) => .ok () (L, out ++ bytes_of_int LUA_TNONE)
      | .fail e st => .fail e st
      | .timeout => .timeout := by
  simp only [lua_serialize_value, h]
  simp [LUA_TTABLE, LUA_TNIL, LUA_TNUMBER, LUA_TBOOLEAN, LUA_TSTRING, LUA_TLIGHTUSERDATA,
    LUA_TUSERDATA, LUA_TFUNCTION, LUA_TTHREAD]

theorem Outcome.prepend_prepend (a b : List Byte)
    (r : Outcome (lua_State × List Byte) Unit) :
    (r.prepend b).prepend a = r.prepend (a ++ b) := by
  cases r with
  | ok u st => obtain ⟨L, o⟩ := st; simp [Outcome.prepend]
  | fail e st => obtain ⟨L, o⟩ := st; simp [Outcome.prepend]
  | timeout => rfl

theorem lua_serialize_prepend (n : Nat) :
    (∀ L out i, lua_serialize_value n L out i =
      (lua_serialize_value n L [] i).prepend out) ∧
    (∀ L out i, lua_serialize_table n L out i =
      (lua_serialize_table n L [] i).prepend out) ∧
    (∀ L out s e, lua_serialize_range n L out s e =
      (lua_serialize_range n L [] s e).prepend out) := by
  induction n with
  | zero =>
    refine ⟨?_, ?_, ?_⟩ <;> intros <;>
      simp [lua_serialize_value, lua_serialize_table, lua_serialize_range, Outcome.prepend]
  | succ n ih =>
    obtain ⟨ihv, iht, ihr⟩ := ih
    refine ⟨?_, ?_, ?_⟩
    · intro L out i
      simp only [lua_serialize_value]
      cases hT : lua_type L i with
      | none => simp [Outcome.prepend]
      | some ty =>
        simp only []
        by_cases hu : ty = LUA_TLIGHTUSERDATA ∨ ty = LUA_TUSERDATA ∨ ty = LUA_TFUNCTION
            ∨ ty = LUA_TTHREAD
        · simp [hu, Outcome.prepend]
        · simp only [hu, if_false]
          by_cases h0 : ty = LUA_TNIL
          · simp [h0, Outcome.prepend]
          by_cases h1 : ty = LUA_TNUMBER
          · subst h1
            simp [Outcome.prepend, LUA_TNIL, LUA_TNUMBER, LUA_TBOOLEAN, LUA_TSTRING, LUA_TTABLE]
          by_cases h2 : ty = LUA_TBOOLEAN
          · subst h2
            simp [Outcome.prepend, LUA_TNIL, LUA_TNUMBER, LUA_TBOOLEAN, LUA_TSTRING, LUA_TTABLE]
          by_cases h3 : ty = LUA_TSTRING
          · subst h3
            simp [Outcome.prepend, LUA_TNIL, LUA_TNUMBER, LUA_TBOOLEAN, LUA_TSTRING, LUA_TTABLE]
          by_cases h4 : ty = LUA_TTABLE
          · subst h4
            simp only [h0, h1, h2, h3, if_false, if_true]
            rw [iht (lua_pushnil L) (out ++ bytes_of_int LUA_TTABLE) i,
              iht (lua_pushnil L) ([] ++ bytes_of_int LUA_TTABLE) i]
            cases lua_serialize_table n (lua_pushnil L) [] i with
            | ok u st => obtain ⟨L2, o⟩ := st; simp [Outcome.prepend]
            | fail e st => obtain ⟨L2, o⟩ := st; simp [Outcome.prepend]
            | timeout => rfl
          · simp [h0, h1, h2, h3, h4, Outcome.prepend]
    · intro L out i
      simp only [lua_serialize_table]
      cases lua_next L i with
      | error e => simp [Outcome.prepend]
      | ok p =>
        obtain ⟨r, L1⟩ := p
        simp only []
        by_cases hr : r = 0
        · simp [hr, Outcome.prepend]
        · simp only [ne_eq, hr, not_false_eq_true, if_true]
          rw [ihr L1 out (-2) (-1)]
          cases lua_serialize_range n L1 [] (-2) (-1) with
          | ok u st =>
            obtain ⟨L2, o⟩ := st
            simp only [Outcome.prepend]
            cases lua_pop L2 1 with
            | none => simp [Outcome.prepend]
            | some L3 =>
              simp only []
              rw [iht L3 (out ++ o) i, iht L3 o i]
              exact (Outcome.prepend_prepend out o _).symm
          | fail e st => obtain ⟨L2, o⟩ := st; simp [Outcome.prepend]
          | timeout => rfl
    · intro L out s e
      simp only [lua_serialize_range]
      by_cases hle : s ≤ e
      · simp only [hle, if_true]
        rw [ihv L out s]
        cases lua_serialize_value n L [] s with
        | ok u st =>
          obtain ⟨L2, o⟩ := st
          simp only [Outcome.prepend]
          by_cases hmax : INT_MAX ≤ s
          · simp only [hmax, if_true]
          · simp only [hmax, if_false]
            rw [ihr L2 (out ++ o) (s + 1) e, ihr L2 o (s + 1) e]
            exact (Outcome.prepend_prepend out o _).symm
        | fail e st => obtain ⟨L2, o⟩ := st; simp [Outcome.prepend]
        | timeout => rfl
      · simp [hle, Outcome.prepend]

/-! ## A serializer run that returns leaves the stack as it found it -/

theorem lua_next_shape (L : lua_State) (i : Int) (r : Int) (L1 : lua_State)
    (h : lua_next L i = .ok (r, L1)) :
    ∃ key rest, L.stack = key :: rest ∧
      ((r = 0 ∧ L1 = ⟨rest⟩) ∨ (r ≠ 0 ∧ ∃ k v, L1 = ⟨v :: k :: rest⟩)) := by
  unfold lua_next at h
  split at h
  · split at h
    · rename_i t key rest _ hstack
      refine ⟨key, rest, hstack, ?_⟩
      split at h
      · simp at h
      · simp only [Except.ok.injEq, Prod.mk.injEq] at h
        exact Or.inl ⟨h.1.symm, h.2.symm⟩
      · rename_i k v _
        simp only [Except.ok.injEq, Prod.mk.injEq] at h
        exact Or.inr ⟨by rw [← h.1]; decide, k, v, h.2.symm⟩
    · simp at h
  · simp at h

theorem lua_serialize_preserves (n : Nat) :
    (∀ L out i L2 out2, lua_serialize_value n L out i = .ok () (L2, out2) → L2 = L) ∧
    (∀ L out i L2 out2, lua_serialize_table n L out i = .ok () (L2, out2) →
      L2.stack = L.stack.tail) ∧
    (∀ L out s e L2 out2, lua_serialize_range n L out s e = .ok () (L2, out2) → L2 = L) := by
  induction n with
  | zero =>
    refine ⟨?_, ?_, ?_⟩ <;> intros <;>
      simp_all [lua_serialize_value, lua_serialize_table, lua_serialize_range]
  | succ n ih =>
    obtain ⟨ihv, iht, ihr⟩ := ih
    refine ⟨?_, ?_, ?_⟩
    · intro L out i L2 out2 h
      simp only [lua_serialize_value] at h
      cases hT : lua_type L i with
      | none => simp [hT] at h
      | some ty =>
        simp only [hT] at h
        by_cases hu : ty = LUA_TLIGHTUSERDATA ∨ ty = LUA_TUSERDATA ∨ ty = LUA_TFUNCTION
            ∨ ty = LUA_TTHREAD
        · simp [hu] at h
        · simp only [hu, if_false] at h
          by_cases h4 : ty = LUA_TTABLE
          · subst h4
            simp only [LUA_TTABLE, LUA_TNIL, LUA_TNUMBER, LUA_TBOOLEAN, LUA_TSTRING] at h
            simp only [show ((5 : Int) = 0) = False by decide,
              show ((5 : Int) = 3) = False by decide, show ((5 : Int) = 1) = False by decide,
              show ((5 : Int) = 4) = False by decide, if_false, if_true] at h
            cases ht : lua_serialize_table n (lua_pushnil L) (out ++ bytes_of_int 5) i with
            | ok u st =>
              obtain ⟨L3, o⟩ := st
              simp only [ht, Outcome.ok.injEq, Prod.mk.injEq, true_and] at h
              have := iht _ _ _ _ _ ht
              simp only [lua_pushnil, List.tail_cons] at this
              rw [← h.1]
              cases L3; cases L; simp_all
            | fail e st => simp [ht] at h
            | timeout => simp [ht] at h
          · simp only [h4, if_false] at h
            split_ifs at h <;> simp_all
    · intro L out i L2 out2 h
      simp only [lua_serialize_table] at h
      cases hn : lua_next L i with
      | error e => simp [hn] at h
      | ok p =>
        obtain ⟨r, L1⟩ := p
        simp only [hn] at h
        obtain ⟨key, rest, hs, hcase⟩ := lua_next_shape L i r L1 hn
        rcases hcase with ⟨hr, hL1⟩ | ⟨hr, k, v, hL1⟩
        · simp only [hr, ne_eq, not_true_eq_false, if_false, Outcome.ok.injEq,
            Prod.mk.injEq, true_and] at h
          rw [← h.1, hL1, hs]; rfl
        · simp only [ne_eq, hr, not_false_eq_true, if_true] at h
          cases hrg : lua_serialize_range n L1 out (-2) (-1) with
          | ok u st =>
            obtain ⟨L3, o⟩ := st
            simp only [hrg] at h
            have h3 := ihr _ _ _ _ _ _ hrg
            subst h3
            subst hL1
            simp only [lua_pop, List.length_cons] at h
            rw [if_pos (by omega)] at h
            simp only [List.drop_succ_cons, List.drop_zero] at h
            have := iht _ _ _ _ _ h
            rw [this, hs]; rfl
          | fail e st => simp [hrg] at h
          | timeout => simp [hrg] at h
    · intro L out s e L2 out2 h
      simp only [lua_serialize_range] at h
      by_cases hle : s ≤ e
      · simp only [hle, if_true] at h
        cases hv : lua_serialize_value n L out s with
        | ok u st =>
          obtain ⟨L3, o⟩ := st
          simp only [hv] at h
          have h3 := ihv _ _ _ _ _ hv
          subst h3
          by_cases hmax : INT_MAX ≤ s
          · simp [hmax] at h
          · simp only [hmax, if_false] at h
            exact ihr _ _ _ _ _ _ h
        | fail e st => simp [hv] at h
        | timeout => simp [hv] at h
      · simp only [hle, if_false, Outcome.ok.injEq, Prod.mk.injEq, true_and] at h
        exact h.1.symm

/-! ## The decoder moves forward unless a string step wraps -/

/-- C12 (fails on the code).  For the table `{ a = {} }` at stack index 1 the claimed output
is table tag, the key `a`, table tag, sentinel, sentinel.  The code appends the table tag, the
key and the inner table tag, then applies `lua_next(L, -1)` to the `nil` it has just pushed
instead of the inner table, and no sentinel is ever written.  This holds for every fuel from
6 on. -/
theorem table_with_table_not_laid_out (fuel : Nat) :
    lua_serialize_value (fuel + 6) ⟨[.table table_with_table]⟩ [] 1 =
      .fail .apiViolation
        (⟨[.nil, .table .empty, .string [97], .table table_with_table]⟩,
         [5, 0, 0, 0, 4, 0, 0, 0, 1, 0, 0, 0, 0, 0, 0, 0, 97, 0, 5, 0, 0, 0]) :=
  lua_serialize_value_enough_fuel 6 fuel _ _ _ _ (by decide) (by decide)

/-- C13 as stated is false: for `true` the serializer does not append the tag followed by the
single byte 1, and on a stream holding the boolean tag followed by one byte the deserializer
reads beyond that byte (here, out of the buffer). -/
theorem boolean_payload_is_not_one_byte :
    ¬ (lua_serialize_value 1 ⟨[.boolean true]⟩ [] 1 =
        .ok () (⟨[.boolean true]⟩, bytes_of_int LUA_TBOOLEAN ++ [1])) ∧
    lua_deserialize_value 1 ⟨[]⟩ ⟨4096, bytes_of_int LUA_TBOOLEAN ++ [1]⟩ 4096 =
      .fail .outOfBounds (⟨[]⟩, 4100) := by
  decide

/-- C13 (amended).  For a boolean at `index`, `lua_serialize_value` appends the boolean tag
followed by exactly four payload bytes, the `int` 0 for `false` (`00 00 00 00`) and 1 for
`true` (`01 00 00 00`); and after a boolean tag `lua_deserialize_value` consumes exactly
four payload bytes, pushing `true` when they hold a non-zero `int`. -/
theorem boolean_layout (fuel : Nat) (L : lua_State) (out : List Byte) (index : Int)
    (b : Bool) (L2 : lua_State) (m : Buffer) (c c1 c2 : Nat) (raw payload : List Byte)
    (hv : stack_value L index = some (.boolean b))
    (h1 : TAKE m c 4 = some (raw, c1)) (htag : int_of_bytes raw = LUA_TBOOLEAN)
    (h2 : TAKE m c1 4 = some (payload, c2)) :
    lua_serialize_value (fuel + 1) L out index =
      .ok () (L, out ++ (bytes_of_int LUA_TBOOLEAN ++ (if b then [1, 0, 0, 0] else [0, 0, 0, 0])))
    ∧ lua_deserialize_value (fuel + 1) L2 m c =
      .ok 1 (⟨.boolean (decide (int_of_bytes payload ≠ 0)) :: L2.stack⟩, c2) := by
  constructor
  · have hs := scalar_serialize fuel L out index (.boolean b) hv rfl
    rw [hs]
    cases b <;> simp [scalar_wire] <;> decide
  · simp only [lua_deserialize_value, h1, h2, htag, lua_pushboolean]
    simp only [LUA_TBOOLEAN, LUA_TNIL, LUA_TNUMBER]
    simp only [show ((1 : Int) = 0) = False by decide, show ((1 : Int) = 3) = False by decide,
      if_false, if_true]
    exact assert_one_pushed_push L2 _ _

/-- Witness for C13 (amended): `true` on the stack, and a buffer holding tag and payload. -/
theorem boolean_layout_witness :
    lua_serialize_value (0 + 1) ⟨[.boolean true]⟩ [] 1 =
      .ok () (⟨[.boolean true]⟩,
        [] ++ (bytes_of_int LUA_TBOOLEAN ++ (if true then [1, 0, 0, 0] else [0, 0, 0, 0])))
    ∧ lua_deserialize_value (0 + 1) ⟨[]⟩ ⟨4096, [1, 0, 0, 0, 1, 0, 0, 0]⟩ 4096 =
      .ok 1 (⟨.boolean (decide (int_of_bytes [1, 0, 0, 0] ≠ 0)) :: []⟩, 4104) :=
  boolean_layout 0 ⟨[.boolean true]⟩ [] 1 true ⟨[]⟩ ⟨4096, [1, 0, 0, 0, 1, 0, 0, 0]⟩
    4096 4100 4104 [1, 0, 0, 0] [1, 0, 0, 0] (by decide) (by decide) (by decide) (by decide)

/-- C14 as stated is false: it does not hold for every `end`.  The counter of the loop is an
`int`, and the loop leaves only when the counter exceeds `end`, which no `int` does for
`end = INT_MAX`.  On the range from `INT_MAX` to `INT_MAX` over the empty stack the one
(absent) value is serialized, as the tag `LUA_TNONE`, and then `i++` overflows: the call
does not return normally, whatever the fuel. -/
theorem range_ending_at_int_max_overflows :
    lua_serialize_range 2 ⟨[]⟩ [] 2147483647 2147483647 =
      .fail .intOverflow (⟨[]⟩, [255, 255, 255, 255]) ∧
    (∀ fuel st, lua_serialize_range fuel ⟨[]⟩ [] 2147483647 2147483647 ≠ .ok () st) := by
  refine ⟨by decide, ?_⟩
  intro fuel st
  rcases fuel with _ | _ | fuel
  · intro h; simp [lua_serialize_range] at h
  · intro h; simp [lua_serialize_range, lua_serialize_value] at h
  · have h2 : lua_serialize_range (2 + fuel) ⟨[]⟩ [] 2147483647 2147483647 =
        .fail .intOverflow (⟨[]⟩, [255, 255, 255, 255]) :=
      (lua_serialize_fuel_mono 2).2.2 _ _ _ _ fuel (by decide) |>.trans (by decide)
    rw [show fuel + 1 + 1 = 2 + fuel from by omega, h2]
    simp

/-- C14 (amended).  Let `end` be smaller than `INT_MAX`.  When the values at `start`,
`start + 1`, ..., `end` serialize to the byte sequences `chunks` (one per value),
`lua_serialize_range` from `start` to `end` appends exactly their concatenation, in that
order, and nothing else; and for an empty range (`end < start`) it appends nothing and
leaves `out` as it was. -/
theorem range_appends_concatenation (fuel : Nat) (L : lua_State) (start : Int)
    (chunks : List (List Byte))
    (hend : start + chunks.length - 1 < INT_MAX)
    (h : ∀ (j : Nat) (c : List Byte), chunks[j]? = some c →
      ∃ L2, lua_serialize_value fuel L [] (start + j) = .ok () (L2, c)) :
    (∀ out, lua_serialize_range (fuel + chunks.length + 1) L out start
        (start + chunks.length - 1) = .ok () (L, out ++ chunks.flatten)) ∧
    (∀ out end_, end_ < start →
      lua_serialize_range (fuel + 1) L out start end_ = .ok () (L, out)) := by
  constructor
  · induction chunks generalizing start with
    | nil =>
      intro out
      rw [show fuel + ([] : List (List Byte)).length + 1 = fuel + 1 from rfl,
        lua_serialize_range_succ, if_neg (by simp)]
      simp
    | cons c cs ih =>
      intro out
      obtain ⟨L2, h0⟩ := h 0 c (by simp)
      have hL := (lua_serialize_preserves fuel).1 _ _ _ _ _ h0
      subst hL
      have h1 := lua_serialize_value_enough_fuel fuel (cs.length + 1) _ _ _ _ h0
        (by simp)
      have hmax : ¬ INT_MAX ≤ start := by
        simp only [List.length_cons, Nat.cast_add, Nat.cast_one] at hend
        omega
      rw [show fuel + (c :: cs).length + 1 = (cs.length + 1 + fuel) + 1 from by
          simp; omega,
        lua_serialize_range_succ, if_pos (by simp; omega),
        (lua_serialize_prepend _).1 L2 out start]
      simp only [Int.add_zero, Nat.cast_zero] at h1
      rw [h1]
      simp only [Outcome.prepend, hmax, if_false]
      have ih2 := ih (start + 1) (by
        simp only [List.length_cons, Nat.cast_add, Nat.cast_one] at hend
        omega) (by
        intro j c2 hj
        have := h (j + 1) c2 (by simpa using hj)
        simpa [Int.add_assoc, Int.add_comm 1] using this) (out ++ c)
      rw [show cs.length + 1 + fuel = fuel + cs.length + 1 from by omega]
      rw [show start + ((c :: cs).length : Int) - 1 = start + 1 + (cs.length : Int) - 1 from by
        simp; omega]
      rw [ih2]
      simp
  · intro out end_ hlt
    rw [lua_serialize_range_succ, if_neg (by omega)]

/-- Witness for C14 (amended): `nil` at position 1 and `true` at position 2. -/
theorem range_appends_concatenation_witness :
    (∀ out, lua_serialize_range (1 + [[0, 0, 0, 0], [1, 0, 0, 0, 1, 0, 0, 0]].length + 1)
        ⟨[.boolean true, .nil]⟩ out 1
        (1 + ([[0, 0, 0, 0], [1, 0, 0, 0, 1, 0, 0, 0]] : List (List Byte)).length - 1) =
      .ok () (⟨[.boolean true, .nil]⟩,
        out ++ ([[0, 0, 0, 0], [1, 0, 0, 0, 1, 0, 0, 0]] : List (List Byte)).flatten)) ∧
    (∀ out end_, end_ < 1 →
      lua_serialize_range (1 + 1) ⟨[.boolean true, .nil]⟩ out 1 end_ =
        .ok () (⟨[.boolean true, .nil]⟩, out)) :=
  range_appends_concatenation 1 ⟨[.boolean true, .nil]⟩ 1
    [[0, 0, 0, 0], [1, 0, 0, 0, 1, 0, 0, 0]] (by decide) (by
      intro j c hj
      match j, hj with
      | 0, hj =>
        simp only [List.getElem?_cons_zero, Option.some.injEq] at hj
        subst hj
        exact ⟨⟨[.boolean true, .nil]⟩, by decide⟩
      | 1, hj =>
        simp only [List.getElem?_cons_succ, List.getElem?_cons_zero, Option.some.injEq] at hj
        subst hj
        exact ⟨⟨[.boolean true, .nil]⟩, by decide⟩
      | j + 2, hj => simp at hj)

/-! ## Failed serialization: C15 -/

/-- C15 as stated is false: it is not the case that `out` after every unserializable-type
failure equals `out` before the call.  For the table `{ a = f }` with a function `f`, at
index 1 and with `out` holding one byte, the failure leaves the table tag and the key `a`
in `out`. -/
theorem failure_inside_table_leaves_fragment :
    ¬ ∀ (fuel : Nat) (L : lua_State) (out : List Byte) (index : Int) (msg : String)
        (L2 : lua_State) (out2 : List Byte),
        lua_serialize_value fuel L out index = .fail (.luaError msg) (L2, out2) →
        out2 = out := by
  intro h
  have h1 := h 5 ⟨[.table table_with_function]⟩ [7] 1
    "cannot serialize variable of type function"
    ⟨[.function 1, .string [97], .table table_with_function]⟩
    [7, 5, 0, 0, 0, 4, 0, 0, 0, 1, 0, 0, 0, 0, 0, 0, 0, 97, 0] (by decide)
  simp at h1

/-- C15 (amended).  When `lua_serialize_value` fails, the bytes that `out` held before the
call are all still there, followed by whatever was appended before the failure.  When the
value at `index` is itself a light userdata, userdata, function or thread, nothing was
appended: `out` equals the array before the call.  When the value at `index` is a table,
the failure is not undone: `out` is left with at least the table tag appended, so it differs
from the array before the call. -/
theorem failure_keeps_out_as_prefix (fuel : Nat) (L : lua_State) (out : List Byte)
    (index : Int) (e : Failure) (L2 : lua_State) (out2 : List Byte)
    (h : lua_serialize_value fuel L out index = .fail e (L2, out2)) :
    (∃ fragment, out2 = out ++ fragment) ∧
    (∀ type, lua_type L index = some type →
      (type = LUA_TLIGHTUSERDATA ∨ type = LUA_TUSERDATA ∨ type = LUA_TFUNCTION
        ∨ type = LUA_TTHREAD) → out2 = out) ∧
    (lua_type L index = some LUA_TTABLE →
      (∃ fragment, out2 = out ++ bytes_of_int LUA_TTABLE ++ fragment) ∧ out2 ≠ out) := by
  refine ⟨?_, ?_, ?_⟩
  · rw [(lua_serialize_prepend fuel).1 L out index] at h
    cases hr : lua_serialize_value fuel L [] index with
    | ok u st => obtain ⟨L3, o⟩ := st; simp [hr, Outcome.prepend] at h
    | fail e3 st =>
      obtain ⟨L3, o⟩ := st
      simp only [hr, Outcome.prepend, Outcome.fail.injEq, Prod.mk.injEq] at h
      exact ⟨o, h.2.2.symm⟩
    | timeout => simp [hr, Outcome.prepend] at h
  · intro type htype hkind
    cases fuel with
    | zero => simp [lua_serialize_value] at h
    | succ n =>
      simp only [lua_serialize_value, htype] at h
      rw [if_pos hkind] at h
      simp only [Outcome.fail.injEq, Prod.mk.injEq] at h
      exact h.2.2.symm
  · intro htype
    have hfrag : ∃ fragment, out2 = out ++ bytes_of_int LUA_TTABLE ++ fragment := by
      cases fuel with
      | zero => simp [lua_serialize_value] at h
      | succ n =>
        rw [lua_serialize_value_table n L out index htype,
          (lua_serialize_prepend n).2.1 (lua_pushnil L) (out ++ bytes_of_int LUA_TTABLE)
            index] at h
        cases hr : lua_serialize_table n (lua_pushnil L) [] index with
        | ok u st => obtain ⟨L3, o⟩ := st; simp [hr, Outcome.prepend] at h
        | fail e3 st =>
          obtain ⟨L3, o⟩ := st
          simp only [hr, Outcome.prepend, Outcome.fail.injEq, Prod.mk.injEq] at h
          exact ⟨o, h.2.2.symm⟩
        | timeout => simp [hr, Outcome.prepend] at h
    refine ⟨hfrag, ?_⟩
    obtain ⟨fragment, hf⟩ := hfrag
    intro heq
    have hl := congrArg List.length (hf.symm.trans heq)
    simp only [List.length_append, length_bytes_of_int] at hl
    omega

/-- Witness for C15 (amended): the table `{ a = f }` at index 1, `out` holding one byte. -/
theorem failure_keeps_out_as_prefix_witness :
    (∃ fragment,
      ([7, 5, 0, 0, 0, 4, 0, 0, 0, 1, 0, 0, 0, 0, 0, 0, 0, 97, 0] : List Byte)
        = [7] ++ fragment) ∧
    (∀ type, lua_type ⟨[.table table_with_function]⟩ 1 = some type →
      (type = LUA_TLIGHTUSERDATA ∨ type = LUA_TUSERDATA ∨ type = LUA_TFUNCTION
        ∨ type = LUA_TTHREAD) →
      ([7, 5, 0, 0, 0, 4, 0, 0, 0, 1, 0, 0, 0, 0, 0, 0, 0, 97, 0] : List Byte) = [7]) ∧
    (lua_type ⟨[.table table_with_function]⟩ 1 = some LUA_TTABLE →
      (∃ fragment,
        ([7, 5, 0, 0, 0, 4, 0, 0, 0, 1, 0, 0, 0, 0, 0, 0, 0, 97, 0] : List Byte)
          = [7] ++ bytes_of_int LUA_TTABLE ++ fragment) ∧
      ([7, 5, 0, 0, 0, 4, 0, 0, 0, 1, 0, 0, 0, 0, 0, 0, 0, 97, 0] : List Byte) ≠ [7]) :=
  failure_keeps_out_as_prefix 5 ⟨[.table table_with_function]⟩ [7] 1
    (.luaError "cannot serialize variable of type function")
    ⟨[.function 1, .string [97], .table table_with_function]⟩
    [7, 5, 0, 0, 0, 4, 0, 0, 0, 1, 0, 0, 0, 0, 0, 0, 0, 97, 0] (by decide)

/-! ## Decoding: C16, C17, C18, C19, C20 -/

/-- C16 (fails on the code).  On the stream string tag, length 2, the bytes `00 07` and the
terminator, `lua_deserialize_value` advances the cursor by all `4 + 8 + 2 + 1` bytes but
pushes the empty string, not the 2-byte string `00 07`: `lua_pushstring` stops at the first
zero byte.  This holds for every positive fuel. -/
theorem string_with_zero_byte_is_cut (fuel : Nat) :
    lua_deserialize_value (fuel + 1) ⟨[]⟩
        ⟨4096, [4, 0, 0, 0, 2, 0, 0, 0, 0, 0, 0, 0, 0, 7, 0]⟩ 4096 =
      .ok 1 (⟨[.string []]⟩, 4096 + (4 + 8 + 2 + 1)) ∧
    LuaValue.string [] ≠ LuaValue.string [0, 7] :=
  ⟨lua_deserialize_value_enough_fuel 1 fuel _ _ _ _ (by decide) (by decide), by decide⟩

/-- C18 (fails on the code).  On the tag 9, which is none of the tags of the `switch`, no case
pushes anything and control reaches `assert(lua_gettop(L) - top == 1)` with the stack
height unchanged: the assertion does not hold.  This holds for every positive fuel. -/
theorem unknown_tag_breaks_assertion (fuel : Nat) :
    lua_deserialize_value (fuel + 1) ⟨[]⟩ ⟨4096, [9, 0, 0, 0]⟩ 4096 =
      .fail .assertionFailed (⟨[]⟩, 4100) :=
  lua_deserialize_value_enough_fuel 1 fuel _ _ _ _ (by decide) (by decide)

/-- C19 (fails on the code).  On a payload that is one `LUA_TNONE` tag, with declared length
4, `lua_deserialize_range` returns 1 although it pushed no value: `i` is incremented
whatever `lua_deserialize_value` returned.  This holds for every positive fuel. -/
theorem sentinel_is_counted_as_value (fuel : Nat) :
    lua_deserialize_range (fuel + 1) ⟨[]⟩ ⟨4096, [255, 255, 255, 255]⟩ 4 =
      .ok 1 (⟨[]⟩, 4100) :=
  lua_deserialize_range_enough_fuel 1 fuel _ _ _ _ (by decide) (by decide)

end Luakit
